import Mathlib

/-!
Shallow embedding of the identity-provisioning core of a PIV-token age
plugin: the policy codec, slot mapper, slot allocator, metadata extractor
and identity builder, translated from
`src/age-plugin-yubikey/src/util.rs` and
`src/age-plugin-yubikey/src/builder.rs`.
-/

/-- The retired PIV slots (the `yubikey` crate's `RetiredSlotId`). -/
inductive RetiredSlotId
  | R1 | R2 | R3 | R4 | R5 | R6 | R7 | R8 | R9 | R10
  | R11 | R12 | R13 | R14 | R15 | R16 | R17 | R18 | R19 | R20
deriving DecidableEq

/-- Modelled from the spec: the fixed, ordered usable-slot list (the global
constant catalog of §9); the repository constant `USABLE_SLOTS` is declared
outside the provided sources. It lists the retired slots in their fixed
order. -/
def USABLE_SLOTS : List RetiredSlotId :=
  [.R1, .R2, .R3, .R4, .R5, .R6, .R7, .R8, .R9, .R10,
   .R11, .R12, .R13, .R14, .R15, .R16, .R17, .R18, .R19, .R20]

/-- Modelled from the spec: the tool's fixed identifier carried in the
certificate Organization attribute (`BINARY_NAME`, declared outside the
provided sources). -/
def BINARY_NAME : String := "age-plugin-yubikey"

/-- PIN policy of a key (`yubikey` crate). The builder only ever handles the
three explicit values; the crate's `Default` variant is never constructed by
this code. -/
inductive PinPolicy
  | Never | Once | Always
deriving DecidableEq

/-- Touch policy of a key (`yubikey` crate). -/
inductive TouchPolicy
  | Never | Always | Cached
deriving DecidableEq

/-- Modelled from the spec: the one-byte wire code of a pin policy
(the `u8` conversion lives in the external `yubikey` crate):
`0x01`=Never, `0x02`=Once, `0x03`=Always. -/
def pinPolicyByte : PinPolicy → Nat
  | .Never => 0x01
  | .Once => 0x02
  | .Always => 0x03

/-- Modelled from the spec: the one-byte wire code of a touch policy
(the `u8` conversion lives in the external `yubikey` crate):
`0x01`=Never, `0x02`=Always, `0x03`=Cached. -/
def touchPolicyByte : TouchPolicy → Nat
  | .Never => 0x01
  | .Always => 0x02
  | .Cached => 0x03

/-- util.rs line 13: the OID of the policy extension. -/
def POLICY_EXTENSION_OID : List Nat := [1, 3, 6, 1, 4, 1, 41482, 3, 8]

/-- An X.509 extension as the extractor sees it: its OID and its raw value
bytes (each byte a `Nat` below 256 in well-formed data). -/
structure X509Extension where
  oid : List Nat
  value : List Nat
deriving DecidableEq

/-- util.rs lines 134-139: decode of the pin-policy byte
(`match policy.value[0]`). -/
def decodePinByte (b : Nat) : Option PinPolicy :=
  if b = 0x01 then some .Never
  else if b = 0x02 then some .Once
  else if b = 0x03 then some .Always
  else none

/-- util.rs lines 140-145: decode of the touch-policy byte
(`match policy.value[1]`). -/
def decodeTouchByte (b : Nat) : Option TouchPolicy :=
  if b = 0x01 then some .Never
  else if b = 0x02 then some .Always
  else if b = 0x03 then some .Cached
  else none

/-- `x509-parser`'s `get_extension_unique`: `Err` when the OID occurs more
than once, `Ok none` when it is absent, `Ok (some e)` when it occurs exactly
once. -/
def getExtensionUnique (oid : List Nat) (exts : List X509Extension) :
    Except Unit (Option X509Extension) :=
  match exts.filter (fun e => e.oid == oid) with
  | [] => .ok none
  | [e] => .ok (some e)
  | _ => .error ()

/-- util.rs lines 123-149: the `policies` closure. Duplicated extension,
absent extension, or a value shorter than 2 bytes all degrade to
`(none, none)`; otherwise the first two value bytes are decoded. -/
def policiesOf (exts : List X509Extension) :
    Option PinPolicy × Option TouchPolicy :=
  match getExtensionUnique POLICY_EXTENSION_OID exts with
  | .error _ => (none, none)
  | .ok none => (none, none)
  | .ok (some policy) =>
    if 2 ≤ policy.value.length then
      (decodePinByte (policy.value.getD 0 0),
       decodeTouchByte (policy.value.getD 1 0))
    else (none, none)

/-- builder.rs lines 149-152: the extension embedded at
certificate-generation time carries exactly the two policy bytes. -/
def encodedPolicyExtension (pp : PinPolicy) (tp : TouchPolicy) :
    X509Extension :=
  ⟨POLICY_EXTENSION_OID, [pinPolicyByte pp, touchPolicyByte tp]⟩

/-- Modelled from the spec: the error taxonomy (§7) plus the concrete
variants used by the provided sources (`Error` lives in `error.rs`, outside
src/). `SlotIsNotEmpty` is the spec's `SlotOccupied`. -/
inductive Error
  | InvalidSlot (n : Nat)
  | SlotIsNotEmpty (s : RetiredSlotId)
  | NoEmptySlots (serial : Nat)
  | Authentication
  | TokenCommunication
  | IoError
deriving DecidableEq

/-- The wrapping `usize` subtraction `n - 1` performed by util.rs line 18
(`slot as usize - 1`) under release-profile two's-complement semantics:
the result is `n - 1` modulo `2 ^ 64`, so for `n = 0` the index wraps to
`2 ^ 64 - 1`. -/
def usizeSub1 (n : Nat) : Nat := ((2 ^ 64 - 1) + n) % 2 ^ 64

/-- util.rs lines 15-21: `ui_to_slot` (the spec's `from_ui`). The UI number
is a `u8`; indexing is `USABLE_SLOTS.get(slot as usize - 1)`. -/
def ui_to_slot (slot : Nat) : Except Error RetiredSlotId :=
  match USABLE_SLOTS.get? (usizeSub1 slot) with
  | some s => .ok s
  | none => .error (.InvalidSlot slot)

/-- util.rs lines 23-26: `slot_to_ui` (the spec's `to_ui`), the 1-based
position of the slot in `USABLE_SLOTS`. Every `RetiredSlotId` occurs there,
so the source's `unwrap` never fires and the function is total. -/
def slot_to_ui (slot : RetiredSlotId) : Nat :=
  USABLE_SLOTS.findIdx (fun s => s == slot) + 1

/-- A PIV slot identifier (the `yubikey` crate's `SlotId`): either one of
the retired slots or some other slot of the card. -/
inductive PivSlotId
  | Retired (s : RetiredSlotId)
  | Other (n : Nat)
deriving DecidableEq

/-- builder.rs lines 62-86: the slot-resolution step of `build`, as pure
selection logic over the fetched key list (`keys` holds the slots of
`Key::list`). A requested occupied slot without `force` is
`SlotIsNotEmpty`; with `force` the request is returned unconditionally;
with no request the first usable slot not occupied is chosen, else
`NoEmptySlots` with the device serial. -/
def allocateSlot (requested : Option RetiredSlotId) (force : Bool)
    (keys : List PivSlotId) (serial : Nat) : Except Error RetiredSlotId :=
  match requested with
  | some slot =>
    if !force then
      if keys.any (fun key => key == .Retired slot) then
        .error (.SlotIsNotEmpty slot)
      else .ok slot
    else .ok slot
  | none =>
    match USABLE_SLOTS.find?
        (fun slot => !keys.any (fun key => key == .Retired slot)) with
    | some slot => .ok slot
    | none => .error (.NoEmptySlots serial)

/-- The subject of a parsed certificate, as the extractor reads it:
`as_str` results of the Organization attributes in order, likewise the
Common Name attributes, and the `Display` rendering of the whole subject. -/
structure X509Subject where
  organizations : List (Except Unit String)
  commonNames : List (Except Unit String)
  description : String

/-- A parsed certificate, restricted to the fields the extractor touches:
subject, extension list, and the `to_rfc2822` rendering of
`validity().not_before` (`Except` carries the rendering error text). -/
structure ParsedCert where
  subject : X509Subject
  extensions : List X509Extension
  notBeforeRfc2822 : Except String String

/-- util.rs lines 75-76: the guard of `extract_name`, true when the first
Organization attribute reads back as exactly `BINARY_NAME`. -/
def isSelfIssued (cert : ParsedCert) : Bool :=
  match cert.subject.organizations.head? with
  | some (.ok org) => org == BINARY_NAME
  | _ => false

/-- util.rs lines 73-100: `extract_name`. Self-issued certificates yield
the first Common Name (empty string when absent or unreadable) and `true`;
foreign certificates yield `none` unless `all`, else the full subject
description and `false`. -/
def extract_name (cert : ParsedCert) (all : Bool) :
    Option (String × Bool) :=
  if isSelfIssued cert then
    some ((cert.subject.commonNames.head?.bind Except.toOption).getD "", true)
  else if !all then none
  else some (cert.subject.description, false)

/-- util.rs lines 102-109: the extracted metadata record. -/
structure Metadata where
  serial : Nat
  slot : RetiredSlotId
  name : String
  created : String
  pin_policy : Option PinPolicy
  touch_policy : Option TouchPolicy
deriving DecidableEq

/-- util.rs lines 176-180: the `created` field,
`not_before.to_rfc2822().unwrap_or_else(|e| format!("Invalid date: ..."))`. -/
def renderNotBefore (cert : ParsedCert) : String :=
  match cert.notBeforeRfc2822 with
  | .ok s => s
  | .error e => "Invalid date: " ++ e

/-- util.rs lines 157-167: the attestation fallback of the foreign path.
`attestFetch` is the outcome of `attest` followed by certificate parsing:
`none` when the attestation query fails, `some none` when its bytes do not
parse, `some (some ac)` when a certificate is obtained; only the last case
decodes policies. -/
def attestPolicies (attestFetch : Option (Option ParsedCert)) :
    Option PinPolicy × Option TouchPolicy :=
  match attestFetch with
  | some (some ac) => policiesOf ac.extensions
  | _ => (none, none)

/-- util.rs lines 112-184: `Metadata::extract`. `certParse` is the
`parse_x509_certificate` outcome on the slot's certificate (`none` aborts
extraction); the live-token inputs are the device serial and the
attestation outcome. -/
def Metadata.extract (serial : Nat) (slot : RetiredSlotId)
    (certParse : Option ParsedCert) (attestFetch : Option (Option ParsedCert))
    (all : Bool) : Option Metadata :=
  match certParse with
  | none => none
  | some cert =>
    (extract_name cert all).map (fun nameOurs =>
      let pols :=
        if nameOurs.2 then policiesOf cert.extensions
        else attestPolicies attestFetch
      { serial := serial, slot := slot, name := nameOurs.1,
        created := renderNotBefore cert,
        pin_policy := pols.1, touch_policy := pols.2 })

/-- builder.rs lines 19-20: the default policies. -/
def DEFAULT_PIN_POLICY : PinPolicy := .Once

/-- builder.rs line 20. -/
def DEFAULT_TOUCH_POLICY : TouchPolicy := .Always

/-- builder.rs lines 22-28: the builder's configuration. -/
structure IdentityBuilder where
  slot : Option RetiredSlotId
  force : Bool
  name : Option String
  pin_policy : Option PinPolicy
  touch_policy : Option TouchPolicy

/-- builder.rs line 88: the effective pin policy. -/
def resolvedPinPolicy (b : IdentityBuilder) : PinPolicy :=
  b.pin_policy.getD DEFAULT_PIN_POLICY

/-- builder.rs line 89: the effective touch policy. -/
def resolvedTouchPolicy (b : IdentityBuilder) : TouchPolicy :=
  b.touch_policy.getD DEFAULT_TOUCH_POLICY

/-- Modelled from the spec: the durable stub reference
`(device_serial, slot, recipient_tag)` (`Stub` lives in `key.rs`, outside
src/); the tag derivation from the recipient is opaque here. -/
structure Stub where
  serial : Nat
  slot : RetiredSlotId
  tag : Nat
deriving DecidableEq

/-- Modelled from the spec: the opaque tag derived from a recipient
(`Stub::new` in `key.rs`, outside src/). -/
def stubTag (recipient : Nat) : Nat := recipient

/-- Modelled from the spec: the generated default name of the fixed form
`age identity <hex of recipient tag>` (builder.rs lines 117-119; the hex
rendering itself is immaterial to the claims). -/
def defaultIdentityName (tag : Nat) : String :=
  "age identity " ++ (Nat.toDigits 16 tag).asString

/-- One token/user interaction of the build sequence, in trace order:
`listKeys` is `Key::list`, `manage` the management-credential unlock,
`genKey` the key-generation command, `promptPin`/`verifyPin` the second
PIN entry and verification of the `PinPolicy::Always` branch,
`touchNotify` the advisory touch message, and `genCert` the
certificate-issuance command. -/
inductive Event
  | listKeys | manage | genKey | promptPin | verifyPin | touchNotify | genCert
deriving DecidableEq

/-- The token-side (and prompt-side) oracle the build drives: the outcome
each external call would have. `genCert` maps the requested common name to
the issuance outcome (with the resulting certificate already put through
`parse_x509_certificate`); `attestFetch` is as in `Metadata.extract`. -/
structure TokenEnv where
  serial : Nat
  listKeys : Except Unit (List PivSlotId)
  manage : Except Unit Unit
  genKey : Except Unit Nat
  pinInput : Except Unit String
  verifyPin : String → Except Unit Unit
  genCert : String → Except Unit (Option ParsedCert)
  attestFetch : Option (Option ParsedCert)

/-- Outcome of `IdentityBuilder::build`: success, an `Error`, or a panic
(the source's `unwrap`/`expect` on the final extraction). -/
inductive BuildOutcome
  | ok (stub : Stub) (recipient : Nat) (m : Metadata)
  | err (e : Error)
  | panic
deriving DecidableEq

/-- builder.rs lines 132-155: the touch advisory, the certificate-issuance
command, and the final `Metadata::extract(..) .unwrap()` over the
just-written certificate with `all = false`. -/
def buildIssueCert (b : IdentityBuilder) (env : TokenEnv)
    (slot : RetiredSlotId) (recipient : Nat) (name : String)
    (tr : List Event) : BuildOutcome × List Event :=
  let tr := if resolvedTouchPolicy b = .Never then tr else tr ++ [.touchNotify]
  match env.genCert name with
  | .error _ => (.err .TokenCommunication, tr ++ [.genCert])
  | .ok certParse =>
    match Metadata.extract env.serial slot certParse env.attestFetch false with
    | some m =>
      (.ok ⟨env.serial, slot, stubTag recipient⟩ recipient m,
       tr ++ [.genCert])
    | none => (.panic, tr ++ [.genCert])

/-- builder.rs lines 121-131: iff the resolved pin policy is `Always`, the
PIN is prompted for again and verified before certificate issuance; a
prompt failure is an I/O error, a verification failure an authentication
error, and either aborts the build. -/
def buildPinStep (b : IdentityBuilder) (env : TokenEnv)
    (slot : RetiredSlotId) (recipient : Nat) (name : String)
    (tr : List Event) : BuildOutcome × List Event :=
  if resolvedPinPolicy b = .Always then
    match env.pinInput with
    | .error _ => (.err .IoError, tr ++ [.promptPin])
    | .ok pin =>
      match env.verifyPin pin with
      | .error _ => (.err .Authentication, tr ++ [.promptPin, .verifyPin])
      | .ok _ =>
        buildIssueCert b env slot recipient name (tr ++ [.promptPin, .verifyPin])
  else buildIssueCert b env slot recipient name tr

/-- builder.rs lines 88-119: after slot resolution, the management unlock,
key generation, recipient/stub derivation and name resolution. -/
def buildAfterSlot (b : IdentityBuilder) (env : TokenEnv)
    (slot : RetiredSlotId) (tr : List Event) : BuildOutcome × List Event :=
  match env.manage with
  | .error _ => (.err .Authentication, tr ++ [.manage])
  | .ok _ =>
    match env.genKey with
    | .error _ => (.err .TokenCommunication, tr ++ [.manage, .genKey])
    | .ok pubkey =>
      let recipient := pubkey
      let name := b.name.getD (defaultIdentityName (stubTag recipient))
      buildPinStep b env slot recipient name (tr ++ [.manage, .genKey])

/-- builder.rs lines 61-162: `IdentityBuilder::build`, returning the
outcome together with the trace of external interactions. `Key::list` is
only consulted when the slot resolution needs the occupancy set. -/
def build (b : IdentityBuilder) (env : TokenEnv) :
    BuildOutcome × List Event :=
  match b.slot with
  | some slot =>
    if b.force then buildAfterSlot b env slot []
    else
      match env.listKeys with
      | .error _ => (.err .TokenCommunication, [.listKeys])
      | .ok keys =>
        match allocateSlot (some slot) false keys env.serial with
        | .ok s => buildAfterSlot b env s [.listKeys]
        | .error e => (.err e, [.listKeys])
  | none =>
    match env.listKeys with
    | .error _ => (.err .TokenCommunication, [.listKeys])
    | .ok keys =>
      match allocateSlot none b.force keys env.serial with
      | .ok s => buildAfterSlot b env s [.listKeys]
      | .error e => (.err e, [.listKeys])

/-- A concrete foreign certificate (no Organization attribute at all) used
to exercise the extractor. -/
def sampleForeignCert : ParsedCert :=
  { subject := { organizations := [], commonNames := [],
                 description := "CN=other-tool" },
    extensions := [],
    notBeforeRfc2822 := .ok "Tue, 01 Jan 2020 00:00:00 +0000" }

/-- A concrete self-issued certificate carrying the Once/Always policy
extension. -/
def sampleSelfCert : ParsedCert :=
  { subject := { organizations := [.ok BINARY_NAME],
                 commonNames := [.ok "test identity"],
                 description := "O=age-plugin-yubikey, CN=test identity" },
    extensions := [encodedPolicyExtension .Once .Always],
    notBeforeRfc2822 := .ok "Tue, 01 Jan 2020 00:00:00 +0000" }

/-- A concrete builder configuration requesting slot R1 with force and the
Always pin policy. -/
def sampleBuilder : IdentityBuilder :=
  { slot := some .R1, force := true, name := some "n",
    pin_policy := some .Always, touch_policy := some .Never }

/-- A concrete token oracle whose PIN verification fails. -/
def sampleEnvBadPin : TokenEnv :=
  { serial := 5, listKeys := .ok [], manage := .ok (), genKey := .ok 42,
    pinInput := .ok "1234", verifyPin := fun _ => .error (),
    genCert := fun _ => .ok (some sampleSelfCert), attestFetch := none }


theorem free_slot_iff (keys : List PivSlotId) (s : RetiredSlotId) :
    (!keys.any (fun key => key == PivSlotId.Retired s)) = true ↔
      PivSlotId.Retired s ∉ keys := by
  simp only [Bool.not_eq_true', List.any_eq_false, beq_iff_eq]
  exact ⟨fun h hm => h _ hm rfl, fun h x hx he => h (he ▸ hx)⟩

theorem find_first_spec {α : Type} (p : α → Bool) (l : List α) (a : α)
    (h : l.find? p = some a) :
    p a = true ∧ ∃ i, l.get? i = some a ∧
      ∀ j, j < i → ∀ b, l.get? j = some b → p b = false := by
  induction l with
  | nil => simp [List.find?] at h
  | cons x xs ih =>
    by_cases hx : p x
    · rw [List.find?_cons_of_pos _ hx] at h
      cases h
      exact ⟨hx, 0, rfl, fun j hj => by omega⟩
    · rw [List.find?_cons_of_neg _ hx] at h
      obtain ⟨hpa, i, hi, hmin⟩ := ih h
      refine ⟨hpa, i + 1, by simpa using hi, fun j hj b hb => ?_⟩
      match j with
      | 0 =>
        simp only [List.get?_cons_zero, Option.some_inj] at hb
        subst hb
        simpa using hx
      | j' + 1 =>
        simp only [List.get?_cons_succ] at hb
        exact hmin j' (by omega) b hb

/-- C1: for every valid policy pair, decoding the 2-byte encoding embedded
at certificate-generation time yields exactly `(some pin, some touch)`
under the wire mapping pin 0x01=Never, 0x02=Once, 0x03=Always and touch
0x01=Never, 0x02=Always, 0x03=Cached; any byte outside 0x01-0x03 decodes
to `none` in its field. -/
theorem policy_codec_roundtrip :
    (∀ pp tp, policiesOf [encodedPolicyExtension pp tp] = (some pp, some tp)) ∧
    (∀ b : Nat, b ≠ 0x01 → b ≠ 0x02 → b ≠ 0x03 →
      decodePinByte b = none ∧ decodeTouchByte b = none) := by
  constructor
  · intro pp tp
    cases pp <;> cases tp <;> rfl
  · intro b h1 h2 h3
    constructor <;> simp [decodePinByte, decodeTouchByte, h1, h2, h3]

theorem policy_codec_roundtrip_witness :
    policiesOf [encodedPolicyExtension .Once .Always] =
        (some .Once, some .Always) ∧
      decodePinByte 0x07 = none ∧ decodeTouchByte 0x07 = none :=
  ⟨policy_codec_roundtrip.1 .Once .Always,
   policy_codec_roundtrip.2 0x07 (by decide) (by decide) (by decide)⟩

/-- C10: any policy-extension value of length at least 2 is accepted, and
the decoded pair depends only on the first two bytes; trailing bytes are
ignored. -/
theorem policy_decode_first_two_bytes (a b : Nat) (rest : List Nat) :
    policiesOf [⟨POLICY_EXTENSION_OID, a :: b :: rest⟩] =
      (decodePinByte a, decodeTouchByte b) := by
  have h2 : 2 ≤ (a :: b :: rest).length := by
    simp only [List.length_cons]
    omega
  simp [policiesOf, getExtensionUnique, h2]

/-- C7: `from_ui` of any u8 outside `[1, 20]` — including 0, where the
wrapping index computation sends the index far past the list — fails with
`InvalidSlot` of that number, without panicking. -/
theorem from_ui_invalid (n : Nat) (hn : n < 256) (h : n = 0 ∨ 20 < n) :
    ui_to_slot n = .error (.InvalidSlot n) := by
  have hlen : USABLE_SLOTS.length = 20 := rfl
  have hidx : USABLE_SLOTS.length ≤ usizeSub1 n := by
    rw [hlen]
    rcases h with h | h
    · subst h
      show 20 ≤ ((2 ^ 64 - 1) + 0) % 2 ^ 64
      norm_num
    · have hw : usizeSub1 n = n - 1 := by
        unfold usizeSub1
        have hlt : n - 1 < 2 ^ 64 := by omega
        have hsplit : (2 ^ 64 - 1) + n = (n - 1) + 1 * 2 ^ 64 := by omega
        rw [hsplit, Nat.add_mul_mod_self_right, Nat.mod_eq_of_lt hlt]
      rw [hw]
      omega
  have hnone : USABLE_SLOTS.get? (usizeSub1 n) = none :=
    List.get?_eq_none.mpr hidx
  simp only [ui_to_slot, hnone]

theorem from_ui_invalid_witness :
    ui_to_slot 0 = .error (.InvalidSlot 0) ∧
      ui_to_slot 21 = .error (.InvalidSlot 21) :=
  ⟨from_ui_invalid 0 (by decide) (Or.inl rfl),
   from_ui_invalid 21 (by decide) (Or.inr (by decide))⟩

/-- C8: for every slot in the usable list, `from_ui (to_ui s) = s`. -/
theorem from_ui_to_ui_roundtrip (s : RetiredSlotId)
    (hs : s ∈ USABLE_SLOTS) : ui_to_slot (slot_to_ui s) = .ok s := by
  cases s <;> rfl

theorem from_ui_to_ui_roundtrip_witness :
    ui_to_slot (slot_to_ui .R20) = .ok .R20 :=
  from_ui_to_ui_roundtrip .R20 (by decide)

/-- C5: requesting a specific slot without force fails with
`SlotIsNotEmpty` exactly when the slot is occupied and otherwise returns
it unchanged; with force the requested slot is returned unconditionally. -/
theorem requested_slot_allocation (slot : RetiredSlotId)
    (keys : List PivSlotId) (serial : Nat) :
    ((PivSlotId.Retired slot ∈ keys →
        allocateSlot (some slot) false keys serial =
          .error (.SlotIsNotEmpty slot)) ∧
     (PivSlotId.Retired slot ∉ keys →
        allocateSlot (some slot) false keys serial = .ok slot)) ∧
    allocateSlot (some slot) true keys serial = .ok slot := by
  refine ⟨⟨fun h => ?_, fun h => ?_⟩, rfl⟩
  · have hany : keys.any (fun key => key == PivSlotId.Retired slot) = true := by
      simp only [List.any_eq_true, beq_iff_eq]
      exact ⟨_, h, rfl⟩
    simp [allocateSlot, hany]
  · have hany : (!keys.any (fun key => key == PivSlotId.Retired slot)) = true :=
      (free_slot_iff keys slot).mpr h
    simp only [Bool.not_eq_true'] at hany
    simp [allocateSlot, hany]

theorem requested_slot_allocation_witness :
    allocateSlot (some .R2) false [.Retired .R2] 9 =
        .error (.SlotIsNotEmpty .R2) ∧
      allocateSlot (some .R2) false [.Retired .R3] 9 = .ok .R2 ∧
      allocateSlot (some .R2) true [.Retired .R2] 9 = .ok .R2 :=
  ⟨(requested_slot_allocation .R2 [.Retired .R2] 9).1.1 (by decide),
   (requested_slot_allocation .R2 [.Retired .R3] 9).1.2 (by decide),
   (requested_slot_allocation .R2 [.Retired .R2] 9).2⟩

/-- C4: with no requested slot, allocation returns the lowest-ordered free
slot of the usable list whenever one exists, and fails with `NoEmptySlots`
carrying the device serial when every usable slot is occupied. -/
theorem auto_allocation (keys : List PivSlotId) (serial : Nat)
    (force : Bool) :
    ((∀ s ∈ USABLE_SLOTS, PivSlotId.Retired s ∈ keys) →
      allocateSlot none force keys serial = .error (.NoEmptySlots serial)) ∧
    ((∃ s ∈ USABLE_SLOTS, PivSlotId.Retired s ∉ keys) →
      ∃ s i, allocateSlot none force keys serial = .ok s ∧
        USABLE_SLOTS.get? i = some s ∧ PivSlotId.Retired s ∉ keys ∧
        ∀ j, j < i → ∀ t, USABLE_SLOTS.get? j = some t →
          PivSlotId.Retired t ∈ keys) := by
  constructor
  · intro hall
    have hnone : USABLE_SLOTS.find?
        (fun slot => !keys.any (fun key => key == PivSlotId.Retired slot)) =
          none :=
      List.find?_eq_none.mpr
        (fun x hx hpx => ((free_slot_iff keys x).mp hpx) (hall x hx))
    simp [allocateSlot, hnone]
  · rintro ⟨s0, hs0, hfree0⟩
    have hx : (USABLE_SLOTS.find?
        (fun slot => !keys.any (fun key => key == PivSlotId.Retired slot))).isSome := by
      rw [List.find?_isSome]
      exact ⟨s0, hs0, (free_slot_iff keys s0).mpr hfree0⟩
    obtain ⟨a, ha⟩ := Option.isSome_iff_exists.mp hx
    obtain ⟨hpa, i, hi, hmin⟩ := find_first_spec _ USABLE_SLOTS a ha
    refine ⟨a, i, ?_, hi, (free_slot_iff keys a).mp hpa, fun j hj t ht => ?_⟩
    · simp [allocateSlot, ha]
    · by_contra hc
      have h1 := (free_slot_iff keys t).mpr hc
      have h2 := hmin j hj t ht
      rw [h1] at h2
      cases h2

theorem auto_allocation_witness :
    allocateSlot none false (USABLE_SLOTS.map PivSlotId.Retired) 7 =
        .error (.NoEmptySlots 7) ∧
      ∃ s i, allocateSlot none false [PivSlotId.Retired .R1] 7 = .ok s ∧
        USABLE_SLOTS.get? i = some s ∧
        PivSlotId.Retired s ∉ [PivSlotId.Retired .R1] ∧
        ∀ j, j < i → ∀ t, USABLE_SLOTS.get? j = some t →
          PivSlotId.Retired t ∈ [PivSlotId.Retired .R1] :=
  ⟨(auto_allocation (USABLE_SLOTS.map PivSlotId.Retired) 7 false).1
      (by decide),
   (auto_allocation [PivSlotId.Retired .R1] 7 false).2
      ⟨.R2, by decide, by decide⟩⟩

/-- C2: a foreign certificate (Organization not the tool's fixed
identifier) yields no metadata when `include_foreign` is false; when true
it yields metadata named by the full subject description whose policies
come only from a successfully obtained and decoded attestation
certificate. -/
theorem foreign_cert_extract (serial : Nat) (slot : RetiredSlotId)
    (cert : ParsedCert) (att : Option (Option ParsedCert))
    (h : isSelfIssued cert = false) :
    Metadata.extract serial slot (some cert) att false = none ∧
    Metadata.extract serial slot (some cert) att true =
      some { serial := serial, slot := slot,
             name := cert.subject.description,
             created := renderNotBefore cert,
             pin_policy := (attestPolicies att).1,
             touch_policy := (attestPolicies att).2 } := by
  constructor <;> simp [Metadata.extract, extract_name, h]

theorem foreign_cert_extract_witness :
    Metadata.extract 7 .R3 (some sampleForeignCert) none false = none ∧
      Metadata.extract 7 .R3 (some sampleForeignCert) none true =
        some { serial := 7, slot := .R3,
               name := sampleForeignCert.subject.description,
               created := renderNotBefore sampleForeignCert,
               pin_policy := (attestPolicies none).1,
               touch_policy := (attestPolicies none).2 } :=
  foreign_cert_extract 7 .R3 sampleForeignCert none rfl

/-- C9: whenever metadata is extracted, its `created` field is the
rendered not-before timestamp, or the explicit invalid-date placeholder
string when rendering fails; extraction never fails (or panics) because of
an unrenderable timestamp. -/
theorem created_field_rendering (serial : Nat) (slot : RetiredSlotId)
    (cert : ParsedCert) (att : Option (Option ParsedCert)) (all : Bool)
    (m : Metadata)
    (h : Metadata.extract serial slot (some cert) att all = some m) :
    (∀ s, cert.notBeforeRfc2822 = .ok s → m.created = s) ∧
    (∀ e, cert.notBeforeRfc2822 = .error e →
      m.created = "Invalid date: " ++ e) ∧
    (∀ tb, (Metadata.extract serial slot
        (some { cert with notBeforeRfc2822 := tb }) att all).isSome =
          true) := by
  obtain ⟨v, hn⟩ : ∃ v, extract_name cert all = some v := by
    cases hx : extract_name cert all with
    | none =>
      rw [Metadata.extract, hx] at h
      cases h
    | some v => exact ⟨v, rfl⟩
  have hmc : m.created = renderNotBefore cert := by
    rw [Metadata.extract, hn] at h
    cases h
    rfl
  refine ⟨fun s hs => ?_, fun e he => ?_, fun tb => ?_⟩
  · rw [hmc]
    unfold renderNotBefore
    rw [hs]
  · rw [hmc]
    unfold renderNotBefore
    rw [he]
  · have hsub : extract_name { cert with notBeforeRfc2822 := tb } all =
        extract_name cert all := rfl
    rw [Metadata.extract, hsub, hn]
    rfl

theorem created_field_rendering_witness :
    ({ serial := 1, slot := .R1, name := "test identity",
       created := "Tue, 01 Jan 2020 00:00:00 +0000",
       pin_policy := some .Once, touch_policy := some .Always :
         Metadata }).created = "Tue, 01 Jan 2020 00:00:00 +0000" :=
  (created_field_rendering 1 .R1 sampleSelfCert none false _ rfl).1
    "Tue, 01 Jan 2020 00:00:00 +0000" rfl

theorem buildIssueCert_trace (b : IdentityBuilder) (env : TokenEnv)
    (slot : RetiredSlotId) (r : Nat) (name : String) (tr : List Event) :
    (buildIssueCert b env slot r name tr).2 =
      (if resolvedTouchPolicy b = .Never then tr
       else tr ++ [Event.touchNotify]) ++ [Event.genCert] := by
  rw [buildIssueCert]
  rcases hc : env.genCert name with e | cp
  · simp
  · rcases hx : Metadata.extract env.serial slot cp env.attestFetch false
      with _ | m <;> simp [hx]

theorem reach_shape (b : IdentityBuilder) (env : TokenEnv)
    (hreach : Event.genKey ∈ (build b env).2) :
    ∃ slot pre, build b env = buildAfterSlot b env slot pre ∧
      Event.genCert ∉ pre ∧ Event.promptPin ∉ pre ∧
      Event.verifyPin ∉ pre := by
  cases hb : b.slot with
  | some slot =>
    cases hf : b.force with
    | true =>
      exact ⟨slot, [], by simp [build, hb, hf], by simp, by simp, by simp⟩
    | false =>
      cases hl : env.listKeys with
      | error e =>
        have hbe : build b env = (.err .TokenCommunication, [.listKeys]) := by
          simp [build, hb, hf, hl]
        rw [hbe] at hreach
        simp at hreach
      | ok keys =>
        cases ha : allocateSlot (some slot) false keys env.serial with
        | ok s =>
          exact ⟨s, [.listKeys], by simp [build, hb, hf, hl, ha],
            by simp, by simp, by simp⟩
        | error e =>
          have hbe : build b env = (.err e, [.listKeys]) := by
            simp [build, hb, hf, hl, ha]
          rw [hbe] at hreach
          simp at hreach
  | none =>
    cases hl : env.listKeys with
    | error e =>
      have hbe : build b env = (.err .TokenCommunication, [.listKeys]) := by
        simp [build, hb, hl]
      rw [hbe] at hreach
      simp at hreach
    | ok keys =>
      cases ha : allocateSlot none b.force keys env.serial with
      | ok s =>
        exact ⟨s, [.listKeys], by simp [build, hb, hl, ha],
          by simp, by simp, by simp⟩
      | error e =>
        have hbe : build b env = (.err e, [.listKeys]) := by
          simp [build, hb, hl, ha]
        rw [hbe] at hreach
        simp at hreach

theorem pin_always_reverified (b : IdentityBuilder) (env : TokenEnv)
    (pk : Nat) (pin : String)
    (hm : env.manage = .ok ())
    (hg : env.genKey = .ok pk)
    (hreach : Event.genKey ∈ (build b env).2) :
    (resolvedPinPolicy b ≠ .Always →
      Event.promptPin ∉ (build b env).2 ∧
      Event.verifyPin ∉ (build b env).2) ∧
    (resolvedPinPolicy b = .Always → env.pinInput = .ok pin →
      env.verifyPin pin = .ok () →
      ∃ pre mid, (build b env).2 =
          pre ++ [Event.manage, Event.genKey, Event.promptPin,
                  Event.verifyPin] ++ mid ++ [Event.genCert] ∧
        Event.genCert ∉ pre ∧ Event.genCert ∉ mid) ∧
    (resolvedPinPolicy b = .Always → env.pinInput = .ok pin →
      env.verifyPin pin = .error () →
      (build b env).1 = .err .Authentication ∧
      Event.genCert ∉ (build b env).2) := by
  obtain ⟨slot, pre, heq, hgc, hpp, hvp⟩ := reach_shape b env hreach
  have has : buildAfterSlot b env slot pre =
      buildPinStep b env slot pk
        (b.name.getD (defaultIdentityName (stubTag pk)))
        (pre ++ [.manage, .genKey]) := by
    simp [buildAfterSlot, hm, hg]
  refine ⟨fun hne => ?_, fun hA hpi hv => ?_, fun hA hpi hv => ?_⟩
  · rw [heq, has, buildPinStep, if_neg hne, buildIssueCert_trace]
    constructor <;> by_cases ht : resolvedTouchPolicy b = .Never <;>
      simp [ht, hpp, hvp]
  · have hps : buildPinStep b env slot pk
        (b.name.getD (defaultIdentityName (stubTag pk)))
        (pre ++ [.manage, .genKey]) =
          buildIssueCert b env slot pk
            (b.name.getD (defaultIdentityName (stubTag pk)))
            ((pre ++ [.manage, .genKey]) ++ [.promptPin, .verifyPin]) := by
      simp [buildPinStep, hA, hpi, hv]
    rw [heq, has, hps, buildIssueCert_trace]
    by_cases ht : resolvedTouchPolicy b = .Never
    · refine ⟨pre, [], ?_, hgc, by simp⟩
      simp [ht, List.append_assoc]
    · refine ⟨pre, [Event.touchNotify], ?_, hgc, by simp⟩
      simp [ht, List.append_assoc]
  · have hps : buildPinStep b env slot pk
        (b.name.getD (defaultIdentityName (stubTag pk)))
        (pre ++ [.manage, .genKey]) =
          (.err .Authentication,
           (pre ++ [.manage, .genKey]) ++ [.promptPin, .verifyPin]) := by
      simp [buildPinStep, hA, hpi, hv]
    rw [heq, has, hps]
    refine ⟨rfl, ?_⟩
    simp [hgc]

theorem pin_always_reverified_witness :
    (build sampleBuilder sampleEnvBadPin).1 = .err .Authentication ∧
      Event.genCert ∉ (build sampleBuilder sampleEnvBadPin).2 :=
  (pin_always_reverified sampleBuilder sampleEnvBadPin 42 "1234" rfl rfl
    (by decide)).2.2 rfl rfl rfl

/-- C3: policy decoding never fails and never fabricates a default: an
absent extension, a duplicated extension, or an extension value shorter
than 2 bytes all decode to `(none, none)`. -/
theorem policy_decode_degrades :
    (∀ exts : List X509Extension,
      (∀ e ∈ exts, e.oid ≠ POLICY_EXTENSION_OID) →
      policiesOf exts = (none, none)) ∧
    (∀ exts : List X509Extension,
      2 ≤ (exts.filter (fun e => e.oid == POLICY_EXTENSION_OID)).length →
      policiesOf exts = (none, none)) ∧
    (∀ (exts : List X509Extension) (e : X509Extension),
      exts.filter (fun x => x.oid == POLICY_EXTENSION_OID) = [e] →
      e.value.length < 2 →
      policiesOf exts = (none, none)) := by
  refine ⟨fun exts h => ?_, fun exts h => ?_, fun exts e hfil hlen => ?_⟩
  · have hfil : exts.filter (fun e => e.oid == POLICY_EXTENSION_OID) = [] :=
      List.filter_eq_nil_iff.mpr (fun a ha => by simpa using h a ha)
    simp [policiesOf, getExtensionUnique, hfil]
  · rcases hfil : exts.filter (fun e => e.oid == POLICY_EXTENSION_OID)
      with _ | ⟨e1, _ | ⟨e2, rest⟩⟩
    · rw [hfil] at h
      simp at h
    · rw [hfil] at h
      simp at h
    · simp [policiesOf, getExtensionUnique, hfil]
  · have h2 : ¬ 2 ≤ e.value.length := by omega
    simp [policiesOf, getExtensionUnique, hfil, h2]

theorem policy_decode_degrades_witness :
    policiesOf [] = (none, none) ∧
      policiesOf [⟨POLICY_EXTENSION_OID, [2, 2]⟩,
                  ⟨POLICY_EXTENSION_OID, [2, 2]⟩] = (none, none) ∧
      policiesOf [⟨POLICY_EXTENSION_OID, [2]⟩] = (none, none) :=
  ⟨policy_decode_degrades.1 [] (by simp),
   policy_decode_degrades.2.1 _ (by decide),
   policy_decode_degrades.2.2 _ ⟨POLICY_EXTENSION_OID, [2]⟩ (by decide)
     (by decide)⟩
